import Mathlib

/-!
Verification development for the pcm-auto-decoder repository.

The Rust sources are shallowly embedded as executable Lean definitions:

* `src/iec61937_detector.rs` — the IEC 61937 preamble scanner and header
  field decoding (`find_preamble`, `payload_bytes`, the `Pc` masks/shifts);
* `src/main.rs` — the hysteretic mode state machine of the main loop
  (`step`, `runFrom`) and the fixed-size input chunk reader (`readChunk`);
* `src/decoders.rs` — the decoder-bridge pump worker that realigns the
  decoding process output to the destination frame size (`pumpRun`) and
  the `finish` hand-back of the wrapped sink (`finishModel`).

Byte buffers are `List Nat` (each element one byte), machine integers are
`Nat` with explicit masks / `%` where the code wraps, I/O reads become
explicit lists of read results, and the pump thread becomes a fold over
the list of chunks the process produced before end-of-stream.
-/

set_option maxHeartbeats 1000000

namespace PcmAutoDecoder

/-! ## SampleSpec and formats (decoders.rs `bytes_per_sample`, libpulse `Spec`) -/

/-- The eight sample formats the decoder supports (`decoders.rs` lines 24–35). -/
inductive Format where
  | S16le | S16be | S24le | S24be | S32le | S32be | F32le | F32be
deriving DecidableEq, Repr

/-- Rust `FfmpegDecoderSink::bytes_per_sample` (decoders.rs lines 24–35). -/
def bytes_per_sample : Format → Nat
  | .S16le | .S16be => 2
  | .S24le | .S24be => 3
  | .S32le | .S32be => 4
  | .F32le | .F32be => 4

/-- libpulse `Spec` as used by the sinks: format, rate, channel count. -/
structure Spec where
  format : Format
  rate : Nat
  channels : Nat
deriving DecidableEq, Repr

/-- Derived `frame_bytes = chans * sample_bytes` (decoders.rs lines 53–55). -/
def frame_bytes (s : Spec) : Nat := s.channels * bytes_per_sample s.format

/-! ## IEC 61937 detector (iec61937_detector.rs) -/

/-- Rust `StreamType` (iec61937_detector.rs lines 23–30); `Unknown` carries the raw code. -/
inductive StreamType where
  | Ac3
  | EAc3
  | Unknown (raw : Nat)
deriving DecidableEq, Repr

/-- Rust `impl From<u8> for StreamType` (iec61937_detector.rs lines 32–40). -/
def StreamType.ofCode (value : Nat) : StreamType :=
  if value = 0x01 then .Ac3
  else if value = 0x15 then .EAc3
  else .Unknown value

/-- Rust `Iec61937Preamble` (iec61937_detector.rs lines 42–49). -/
structure Iec61937Preamble where
  stream_type : StreamType
  error : Bool
  info : Nat
  stream_number : Nat
  length_code : Nat
deriving DecidableEq, Repr

/-- Rust `Iec61937Preamble::payload_bytes` (iec61937_detector.rs lines 51–59). -/
def payload_bytes (p : Iec61937Preamble) : Option Nat :=
  match p.stream_type with
  | .Ac3 => some (p.length_code / 8)
  | .EAc3 => some p.length_code
  | .Unknown _ => none

/-- Constant `PC_TYPE_MASK` (iec61937_detector.rs line 13). -/
def PC_TYPE_MASK : Nat := 0x007F
/-- Constant `PC_ERR_MASK` (line 14). -/
def PC_ERR_MASK : Nat := 0x0080
/-- Constant `PC_INFO_MASK` (line 15). -/
def PC_INFO_MASK : Nat := 0x1F00
/-- Constant `PC_STRM_MASK` (line 16). -/
def PC_STRM_MASK : Nat := 0xE000
/-- Constant `PC_TYPE_SHIFT` (line 18). -/
def PC_TYPE_SHIFT : Nat := 0
/-- Constant `PC_ERR_SHIFT` (line 19). -/
def PC_ERR_SHIFT : Nat := 7
/-- Constant `PC_INFO_SHIFT` (line 20). -/
def PC_INFO_SHIFT : Nat := 8
/-- Constant `PC_STRM_SHIFT` (line 21). -/
def PC_STRM_SHIFT : Nat := 13

/-- The sync test of the scan loop: `bytes[i..i+2] == PA_SYNC_LE && bytes[i+2..i+4] ==
PB_SYNC_LE` (iec61937_detector.rs line 78), with `PA_SYNC_LE = [0x72, 0xF8]` and
`PB_SYNC_LE = [0x1F, 0x4E]`.  Out-of-range reads default to 0, which matches no
sync byte, so this is `false` beyond the buffer. -/
def syncWordAt (bytes : List Nat) (i : Nat) : Bool :=
  bytes.getD i 0 == 0x72 && bytes.getD (i + 1) 0 == 0xF8 &&
  bytes.getD (i + 2) 0 == 0x1F && bytes.getD (i + 3) 0 == 0x4E

/-- The header decoding performed at a match (iec61937_detector.rs lines 79–93):
`pc`/`pd` are read little-endian, the fields come from the fixed masks/shifts. -/
def decodePreambleAt (bytes : List Nat) (i : Nat) : Iec61937Preamble :=
  let pc := bytes.getD (i + 4) 0 + 256 * bytes.getD (i + 5) 0
  let pd := bytes.getD (i + 6) 0 + 256 * bytes.getD (i + 7) 0
  { stream_type := StreamType.ofCode ((pc &&& PC_TYPE_MASK) >>> PC_TYPE_SHIFT)
    error := ((pc &&& PC_ERR_MASK) >>> PC_ERR_SHIFT) != 0
    info := (pc &&& PC_INFO_MASK) >>> PC_INFO_SHIFT
    stream_number := (pc &&& PC_STRM_MASK) >>> PC_STRM_SHIFT
    length_code := pd }

/-- The scan loop `for i in 0..=bytes.len().saturating_sub(8)`
(iec61937_detector.rs lines 77–95), as a recursion on the current offset:
while the whole 8-byte header fits, test the sync pair and either decode and
stop, or advance one byte. -/
def findFrom (bytes : List Nat) (i : Nat) : Option Iec61937Preamble :=
  if h : i + 8 ≤ bytes.length then
    if syncWordAt bytes i then some (decodePreambleAt bytes i)
    else findFrom bytes (i + 1)
  else none
termination_by bytes.length - i
decreasing_by omega

/-- Rust `Iec61937Detector::find_preamble` (iec61937_detector.rs lines 67–97):
buffers shorter than 8 bytes are rejected up front, then the scan runs from
offset 0. -/
def find_preamble (bytes : List Nat) : Option Iec61937Preamble :=
  if bytes.length < 8 then none else findFrom bytes 0

/-! ## Mode state machine (main.rs lines 202–283) -/

/-- Rust `Mode` (main.rs lines 102–107).  `Iec61937` is the "Compressed" mode of the spec. -/
inductive Mode where
  | Unknown
  | Pcm
  | Iec61937
deriving DecidableEq, Repr

/-- Which sink, if any, the current chunk is written to in one loop iteration. -/
inductive Route where
  | toDecoder
  | toPcm
  | dropped
deriving DecidableEq, Repr

/-- Observable result of one main-loop iteration: the next mode, the next
`chunks_without_61937` counter, where the chunk went, whether a fresh decoder
session was opened (`FfmpegDecoderSink::wrap`) and whether the open session was
closed (`finish`, recovering the wrapped sink). -/
structure StepOut where
  mode : Mode
  streak : Nat
  route : Route
  opened : Bool
  closed : Bool
deriving DecidableEq, Repr

/-- One iteration of the `match mode` block of the main loop (main.rs lines
214–282), given the current mode, the current `chunks_without_61937` value and
whether `find_preamble` returned `Some` for this chunk. -/
def step (detWindow : Nat) (mode : Mode) (streak : Nat) (detected : Bool) : StepOut :=
  match mode, detected with
  | .Unknown, true => ⟨.Iec61937, 0, .toDecoder, true, false⟩
  | .Unknown, false =>
      if detWindow ≤ streak + 1 then ⟨.Pcm, streak + 1, .toPcm, false, false⟩
      else ⟨.Unknown, streak + 1, .dropped, false, false⟩
  | .Pcm, true => ⟨.Iec61937, 0, .toDecoder, true, false⟩
  | .Pcm, false => ⟨.Pcm, streak, .toPcm, false, false⟩
  | .Iec61937, true => ⟨.Iec61937, 0, .toDecoder, false, false⟩
  | .Iec61937, false =>
      if detWindow ≤ streak + 1 then ⟨.Pcm, streak + 1, .toPcm, false, true⟩
      else ⟨.Iec61937, streak + 1, .toDecoder, false, false⟩

/-- The mode/counter part of one iteration. -/
def stepMS (detWindow : Nat) (st : Mode × Nat) (detected : Bool) : Mode × Nat :=
  let o := step detWindow st.1 st.2 detected
  (o.mode, o.streak)

/-- Run the main loop over a list of per-chunk detection results, starting from
a given mode and counter; returns the state at the top of the next iteration. -/
def runFrom (detWindow : Nat) (st : Mode × Nat) : List Bool → Mode × Nat
  | [] => st
  | d :: rest => runFrom detWindow (stepMS detWindow st d) rest

/-! ## Decoder-bridge pump worker (decoders.rs lines 70–108) -/

/-- State of the pump worker: `active` is whether `out` is still `Some`
(the wrapped sink has not been dropped after a failed write), `stash` is the
byte accumulator, `attempts` records every payload passed to the wrapped
sink's `write`, and `k` counts those attempts (the failure oracle is indexed
by it). -/
structure PumpState where
  active : Bool
  stash : List Nat
  attempts : List (List Nat)
  k : Nat
deriving DecidableEq, Repr

/-- One iteration of the pump loop body for a successful process read
(decoders.rs lines 79–95): append the read bytes to the accumulator, compute
`aligned = stash.len() - stash.len() % frame_bytes`; if `aligned > 0`, write
the aligned prefix to the wrapped sink when it is still alive — dropping the
sink (`out = None`) if that write fails — and drain the prefix from the
accumulator in every case.  `fail j` says whether the j-th sink write errors. -/
def pumpChunk (fb : Nat) (fail : Nat → Bool) (st : PumpState) (chunk : List Nat) :
    PumpState :=
  let stash1 := st.stash ++ chunk
  let aligned := stash1.length - stash1.length % fb
  if 0 < aligned then
    if st.active then
      { active := !fail st.k
        stash := stash1.drop aligned
        attempts := st.attempts ++ [stash1.take aligned]
        k := st.k + 1 }
    else { st with stash := stash1.drop aligned }
  else { st with stash := stash1 }

/-- The hardcoded flush constant `FRAME_BYTES = 6 /*ch*/ * 4 /*f32*/`
(decoders.rs line 73).  Note it is NOT the `frame_bytes` derived from the
wrapped sink's spec. -/
def FRAME_BYTES : Nat := 6 * 4

/-- The end-of-stream tail flush (decoders.rs lines 98–105): if the
accumulator is non-empty, pad it with zeros to the next multiple of the
hardcoded `FRAME_BYTES` (no padding when it is already a multiple), then make
one final write whose error is ignored — the sink is NOT dropped on failure
here. -/
def pumpFlush (st : PumpState) : PumpState :=
  if st.stash.isEmpty then st
  else
    let pad := FRAME_BYTES - st.stash.length % FRAME_BYTES
    let stash1 := if pad < FRAME_BYTES then st.stash ++ List.replicate pad 0 else st.stash
    if st.active then
      { st with stash := stash1, attempts := st.attempts ++ [stash1], k := st.k + 1 }
    else { st with stash := stash1 }

/-- The whole pump worker run (decoders.rs lines 70–108): fold the loop body
over the list of process reads delivered before end-of-stream, then flush. -/
def pumpRun (fb : Nat) (fail : Nat → Bool) (reads : List (List Nat)) : PumpState :=
  pumpFlush (reads.foldl (pumpChunk fb fail) ⟨true, [], [], 0⟩)

/-- Termination value of the pump worker thread. -/
inductive PumpOutcome (α : Type) where
  | ok (sink : α)
  | panicked
deriving DecidableEq, Repr

/-- The pump thread's result (decoders.rs line 107, `Ok(out.unwrap())`): the
wrapped sink object `σ` is moved into the thread and handed back unchanged if
`out` is still `Some`; if a loop write had failed (`out = None`), `unwrap`
panics and the thread terminates abnormally. -/
def pumpOutcome {α : Type} (fb : Nat) (fail : Nat → Bool) (σ : α)
    (reads : List (List Nat)) : PumpOutcome α :=
  if (pumpRun fb fail reads).active then .ok σ else .panicked

/-- Rust `FfmpegDecoderSink::finish` (decoders.rs lines 115–129), restricted to its
pump-join part: joining a panicked pump yields `Err("pump thread panicked")`
(modelled `Except.error ()`), otherwise the sink returned by the pump is
passed through. -/
def finishModel {α : Type} (fb : Nat) (fail : Nat → Bool) (σ : α)
    (reads : List (List Nat)) : Except Unit α :=
  match pumpOutcome fb fail σ reads with
  | .ok s => .ok s
  | .panicked => .error ()

/-! ## Input reader (main.rs lines 112–176) -/

/-- Rust `Input::open` buffer size (main.rs lines 118–120): `chunk_frames * bytes_per_frame`
with `bytes_per_frame = in_channels * 2` — the 2 bytes per sample are hardcoded,
independent of the configured input format. -/
def inputChunkBytes (chunkFrames channels : Nat) : Nat :=
  chunkFrames * (channels * 2)

/-- The file-input read loop of `Input::read_chunk` (main.rs lines 161–172):
`got` accumulates read sizes until the buffer of length `L` is full; a read of
0 (end-of-file) just logs, sleeps and retries.  The loop is driven here by the
list of sizes the successive `read` calls return; `none` means that list was
exhausted before the chunk was filled (the real loop would keep blocking). -/
def readChunk (L : Nat) (reads : List Nat) (got : Nat) : Option Nat :=
  match reads with
  | [] => if L ≤ got then some got else none
  | n :: rest => if L ≤ got then some got else readChunk L rest (got + n)

/-- The contract of `f.read(&mut buf[got..])`: each returned size is at most
the space remaining in the buffer. -/
def validReads (L : Nat) (got : Nat) : List Nat → Bool
  | [] => true
  | n :: rest => if L ≤ got then true else decide (n ≤ L - got) && validReads L (got + n) rest

/-! ## Spec-side predicates -/

/-- Spec-side: the four sync-pair bytes (`0xF872` then `0x4E1F`, each
little-endian) occur at byte offset `i`, fully inside the buffer. -/
def specSyncOccursAt (b : List Nat) (i : Nat) : Prop :=
  i + 4 ≤ b.length ∧ b.getD i 0 = 0x72 ∧ b.getD (i + 1) 0 = 0xF8 ∧
  b.getD (i + 2) 0 = 0x1F ∧ b.getD (i + 3) 0 = 0x4E

instance (b : List Nat) (i : Nat) : Decidable (specSyncOccursAt b i) := by
  unfold specSyncOccursAt; infer_instance

/-! ## Helper lemmas -/

lemma and_shiftLeft_shiftRight (n m s : Nat) :
    (n &&& (m <<< s)) >>> s = (n >>> s) &&& m := by
  apply Nat.eq_of_testBit_eq
  intro i
  simp only [Nat.testBit_shiftRight, Nat.testBit_and, Nat.testBit_shiftLeft]
  have h : s ≤ s + i := Nat.le_add_right s i
  simp [h, Nat.add_sub_cancel_left]

lemma and_mask_mod (n k : Nat) : n &&& (2 ^ k - 1) = n % 2 ^ k :=
  Nat.and_pow_two_sub_one_eq_mod n k

lemma findFrom_none_of_no_sync (b : List Nat) :
    ∀ (n i : Nat), b.length - i ≤ n →
      (∀ j, i ≤ j → j + 8 ≤ b.length → syncWordAt b j = false) →
      findFrom b i = none := by
  intro n
  induction n with
  | zero =>
      intro i hle _
      rw [findFrom]
      rw [dif_neg (by omega)]
  | succ n ih =>
      intro i hle hno
      rw [findFrom]
      by_cases hg : i + 8 ≤ b.length
      · rw [dif_pos hg]
        rw [hno i le_rfl hg]
        simp only [Bool.false_eq_true, if_false]
        exact ih (i + 1) (by omega) (fun j hj hj8 => hno j (by omega) hj8)
      · rw [dif_neg hg]

lemma findFrom_some_of_first (b : List Nat) (i₀ : Nat)
    (hlen : i₀ + 8 ≤ b.length) (hsync : syncWordAt b i₀ = true) :
    ∀ (k i : Nat), i₀ - i ≤ k → i ≤ i₀ →
      (∀ j, i ≤ j → j < i₀ → syncWordAt b j = false) →
      findFrom b i = some (decodePreambleAt b i₀) := by
  intro k
  induction k with
  | zero =>
      intro i hk hi _
      have : i = i₀ := by omega
      subst this
      rw [findFrom, dif_pos hlen, hsync]
      simp
  | succ k ih =>
      intro i hk hi hno
      by_cases heq : i = i₀
      · subst heq
        rw [findFrom, dif_pos hlen, hsync]
        simp
      · have hlt : i < i₀ := by omega
        rw [findFrom, dif_pos (by omega), hno i le_rfl hlt]
        simp only [Bool.false_eq_true, if_false]
        exact ih (i + 1) (by omega) (by omega) (fun j hj hj' => hno j (by omega) hj')

/-! ## Claim C3 -/

/-- Claim C3 counterexample: the 8-byte buffer `00 72 F8 1F 4E 00 00 00` is not
shorter than 8 bytes and contains an occurrence of the sync pair (at offset 1,
fully inside the buffer), yet `find_preamble` returns `none`, because the only
occurrence does not leave room for the full 8-byte header (offset 1 is outside
the scanned range `0..len-8 = 0..0`). -/
theorem find_preamble_tail_occurrence_counterexample :
    ¬ (([0x00, 0x72, 0xF8, 0x1F, 0x4E, 0x00, 0x00, 0x00] : List Nat).length < 8) ∧
    specSyncOccursAt [0x00, 0x72, 0xF8, 0x1F, 0x4E, 0x00, 0x00, 0x00] 1 ∧
    find_preamble [0x00, 0x72, 0xF8, 0x1F, 0x4E, 0x00, 0x00, 0x00] = none := by
  refine ⟨by decide, by decide, ?_⟩
  rw [find_preamble, if_neg (by decide)]
  refine findFrom_none_of_no_sync _ 8 0 (by decide) ?_
  intro j hj hj8
  have h8 : ([0x00, 0x72, 0xF8, 0x1F, 0x4E, 0x00, 0x00, 0x00] : List Nat).length = 8 := by
    decide
  rw [h8] at hj8
  have hj0 : j = 0 := by omega
  subst hj0
  decide

/-- Claim C3 (amended): `find_preamble` returns `none` for every buffer shorter
than 8 bytes and for every buffer with no sync-pair occurrence at an offset `i`
with `i + 8 ≤ len` (i.e., in the scanned range `0..len-8`); otherwise it
returns the preamble decoded at the first (lowest) such offset — `Pc` and `Pd`
are the following little-endian 16-bit words, data type = `Pc` bits 0–6,
error = bit 7, info = bits 8–12, stream number = bits 13–15, and the length
code is `Pd` verbatim. -/
theorem find_preamble_first_match_characterization :
    (∀ b : List Nat, b.length < 8 → find_preamble b = none) ∧
    (∀ b : List Nat, (∀ i, i + 8 ≤ b.length → syncWordAt b i = false) →
      find_preamble b = none) ∧
    (∀ (b : List Nat) (i₀ : Nat), i₀ + 8 ≤ b.length → syncWordAt b i₀ = true →
      (∀ j, j < i₀ → syncWordAt b j = false) →
      find_preamble b = some (decodePreambleAt b i₀)) ∧
    (∀ (b : List Nat) (i : Nat),
      (decodePreambleAt b i).stream_type
        = StreamType.ofCode ((b.getD (i + 4) 0 + 256 * b.getD (i + 5) 0) % 128) ∧
      (decodePreambleAt b i).error
        = decide ((b.getD (i + 4) 0 + 256 * b.getD (i + 5) 0) / 128 % 2 = 1) ∧
      (decodePreambleAt b i).info
        = (b.getD (i + 4) 0 + 256 * b.getD (i + 5) 0) / 256 % 32 ∧
      (decodePreambleAt b i).stream_number
        = (b.getD (i + 4) 0 + 256 * b.getD (i + 5) 0) / 8192 % 8 ∧
      (decodePreambleAt b i).length_code
        = b.getD (i + 6) 0 + 256 * b.getD (i + 7) 0) := by
  refine ⟨?_, ?_, ?_, ?_⟩
  · intro b hb
    rw [find_preamble, if_pos hb]
  · intro b hno
    rw [find_preamble]
    by_cases hb : b.length < 8
    · rw [if_pos hb]
    · rw [if_neg hb]
      exact findFrom_none_of_no_sync b b.length 0 (by omega)
        (fun j _ hj8 => hno j hj8)
  · intro b i₀ hlen hsync hfirst
    rw [find_preamble, if_neg (by omega)]
    exact findFrom_some_of_first b i₀ hlen hsync i₀ 0 (by omega) (by omega)
      (fun j _ hj => hfirst j hj)
  · intro b i
    set pc := b.getD (i + 4) 0 + 256 * b.getD (i + 5) 0 with hpc
    have htype : pc &&& PC_TYPE_MASK = pc % 128 := by
      have := and_mask_mod pc 7
      norm_num at this
      simpa [PC_TYPE_MASK] using this
    have herr : (pc &&& PC_ERR_MASK) >>> 7 = pc / 128 % 2 := by
      have h1 : (PC_ERR_MASK : Nat) = 1 <<< 7 := by decide
      rw [h1, and_shiftLeft_shiftRight, Nat.shiftRight_eq_div_pow]
      rw [Nat.and_one_is_mod]
    have hinfo : (pc &&& PC_INFO_MASK) >>> 8 = pc / 256 % 32 := by
      have h1 : (PC_INFO_MASK : Nat) = 31 <<< 8 := by decide
      rw [h1, and_shiftLeft_shiftRight, Nat.shiftRight_eq_div_pow]
      have := and_mask_mod (pc / 2 ^ 8) 5
      norm_num at this ⊢
      exact this
    have hstrm : (pc &&& PC_STRM_MASK) >>> 13 = pc / 8192 % 8 := by
      have h1 : (PC_STRM_MASK : Nat) = 7 <<< 13 := by decide
      rw [h1, and_shiftLeft_shiftRight, Nat.shiftRight_eq_div_pow]
      have := and_mask_mod (pc / 2 ^ 13) 3
      norm_num at this ⊢
      exact this
    refine ⟨?_, ?_, ?_, ?_, ?_⟩
    · show StreamType.ofCode ((pc &&& PC_TYPE_MASK) >>> PC_TYPE_SHIFT) = _
      rw [PC_TYPE_SHIFT, Nat.shiftRight_zero, htype]
    · show (((pc &&& PC_ERR_MASK) >>> PC_ERR_SHIFT) != 0) = _
      rw [PC_ERR_SHIFT, herr]
      rcases Nat.mod_two_eq_zero_or_one (pc / 128) with h | h <;> rw [h] <;> decide
    · show (pc &&& PC_INFO_MASK) >>> PC_INFO_SHIFT = _
      rw [PC_INFO_SHIFT, hinfo]
    · show (pc &&& PC_STRM_MASK) >>> PC_STRM_SHIFT = _
      rw [PC_STRM_SHIFT, hstrm]
    · rfl

/-- Witness for C3: on the spec's own test vector the first (and only) sync
offset is 0 and the characterization yields the decoded preamble. -/
theorem find_preamble_first_match_witness :
    find_preamble [0x72, 0xF8, 0x1F, 0x4E, 0x01, 0x00, 0x10, 0x06]
      = some (decodePreambleAt [0x72, 0xF8, 0x1F, 0x4E, 0x01, 0x00, 0x10, 0x06] 0) :=
  find_preamble_first_match_characterization.2.2.1
    [0x72, 0xF8, 0x1F, 0x4E, 0x01, 0x00, 0x10, 0x06] 0 (by decide) (by decide)
    (fun j hj => absurd hj (Nat.not_lt_zero j))

/-! ## Claim C6 -/

/-- Claim C6: `payload_bytes()` is `lengthCode / 8` (integer truncation) for
`Ac3`, `lengthCode` verbatim for `EAc3`, and undefined (`none`) for `Unknown`;
on the 8 bytes `72 F8 1F 4E 01 00 10 06` the decoded preamble is an `Ac3`
preamble with `error = false`, `lengthCode = 0x0610 = 1552` and
`payload_bytes = 194`. -/
theorem payload_bytes_by_stream_type :
    (∀ (e : Bool) (i s L : Nat), payload_bytes ⟨.Ac3, e, i, s, L⟩ = some (L / 8)) ∧
    (∀ (e : Bool) (i s L : Nat), payload_bytes ⟨.EAc3, e, i, s, L⟩ = some L) ∧
    (∀ (e : Bool) (c i s L : Nat), payload_bytes ⟨.Unknown c, e, i, s, L⟩ = none) ∧
    find_preamble [0x72, 0xF8, 0x1F, 0x4E, 0x01, 0x00, 0x10, 0x06]
      = some ⟨.Ac3, false, 0, 0, 1552⟩ ∧
    (0x0610 = 1552) ∧
    payload_bytes ⟨.Ac3, false, 0, 0, 1552⟩ = some 194 := by
  refine ⟨fun _ _ _ _ => rfl, fun _ _ _ _ => rfl, fun _ _ _ _ _ => rfl, ?_, rfl, rfl⟩
  rw [find_preamble, if_neg (by decide)]
  rw [findFrom, dif_pos (by decide), if_pos (by decide)]
  decide

/-! ## Claims C1, C2, C9, C10 — the mode state machine -/

lemma runFrom_append (dW : Nat) (xs ys : List Bool) :
    ∀ st : Mode × Nat, runFrom dW st (xs ++ ys) = runFrom dW (runFrom dW st xs) ys := by
  induction xs with
  | nil => intro st; rfl
  | cons d rest ih => intro st; simp only [List.cons_append, runFrom]; exact ih _

lemma runFrom_replicate_miss (dW : Nat) (m : Mode)
    (hm : m = .Unknown ∨ m = .Iec61937) :
    ∀ (j s : Nat), s + j < dW → runFrom dW (m, s) (List.replicate j false) = (m, s + j) := by
  intro j
  induction j with
  | zero => intro s _; simp [runFrom]
  | succ j ih =>
      intro s hs
      rw [List.replicate_succ]
      have hstep : stepMS dW (m, s) false = (m, s + 1) := by
        rcases hm with rfl | rfl <;>
          simp [stepMS, step, if_neg (show ¬ dW ≤ s + 1 by omega)]
      rw [runFrom, hstep]
      have := ih (s + 1) (by omega)
      rw [this]
      congr 1
      omega

/-- Claim C1: in every mode and for every miss-streak value, a chunk with a
detected preamble drives the machine to `Iec61937` (Compressed) with the
streak reset to 0, the chunk is routed to the decoder session, a fresh session
is opened exactly when the prior mode was not already `Iec61937`, and no
session is closed — a single hit preempts any accumulated miss streak. -/
theorem step_hit_enters_compressed (detWindow : Nat) (m : Mode) (s : Nat) :
    (step detWindow m s true).mode = .Iec61937 ∧
    (step detWindow m s true).streak = 0 ∧
    (step detWindow m s true).route = .toDecoder ∧
    (step detWindow m s true).opened = decide (m ≠ .Iec61937) ∧
    (step detWindow m s true).closed = false := by
  cases m <;> simp [step]

/-- Claim C2: starting from `Unknown` or `Iec61937` (Compressed) with a zero
streak, the machine is still in the same mode after any `j < detWindow`
consecutive misses (with streak `j`) and switches to `Pcm` exactly on the
`detWindow`-th consecutive miss; per step, a miss in `Iec61937` below the
window still routes the chunk to the open decoder session, and the miss that
reaches the window closes the session (recovering the wrapped sink), switches
to `Pcm` and routes the current chunk to the passthrough sink. -/
theorem mode_machine_pcm_after_window :
    (∀ (dW j : Nat) (m : Mode), (m = .Unknown ∨ m = .Iec61937) → j < dW →
      runFrom dW (m, 0) (List.replicate j false) = (m, j)) ∧
    (∀ (dW : Nat) (m : Mode), 1 ≤ dW → (m = .Unknown ∨ m = .Iec61937) →
      (runFrom dW (m, 0) (List.replicate dW false)).1 = .Pcm) ∧
    (∀ (dW s : Nat), s + 1 < dW →
      step dW .Iec61937 s false = ⟨.Iec61937, s + 1, .toDecoder, false, false⟩) ∧
    (∀ (dW s : Nat), dW ≤ s + 1 →
      step dW .Iec61937 s false = ⟨.Pcm, s + 1, .toPcm, false, true⟩) := by
  refine ⟨?_, ?_, ?_, ?_⟩
  · intro dW j m hm hj
    have := runFrom_replicate_miss dW m hm j 0 (by omega)
    simpa using this
  · intro dW m hdW hm
    obtain ⟨k, rfl⟩ : ∃ k, dW = k + 1 := ⟨dW - 1, by omega⟩
    rw [List.replicate_succ']
    rw [runFrom_append]
    have h1 : runFrom (k + 1) (m, 0) (List.replicate k false) = (m, k) := by
      have := runFrom_replicate_miss (k + 1) m hm k 0 (by omega)
      simpa using this
    rw [h1]
    rcases hm with rfl | rfl <;>
      simp [runFrom, stepMS, step, if_pos (show k + 1 ≤ k + 1 from le_rfl)]
  · intro dW s hs
    simp [step, if_neg (show ¬ dW ≤ s + 1 by omega)]
  · intro dW s hs
    simp [step, if_pos hs]

/-- Witness for C2 at `detWindow = 3` from `Unknown`: three misses give `Pcm`. -/
theorem mode_machine_pcm_after_window_witness :
    (runFrom 3 (Mode.Unknown, 0) (List.replicate 3 false)).1 = Mode.Pcm :=
  mode_machine_pcm_after_window.2.1 3 Mode.Unknown (by decide) (Or.inl rfl)

lemma step_preserves_compressed_inv (dW : Nat) (hdW : 1 ≤ dW) (m : Mode) (s : Nat)
    (d : Bool) (hinv : m = .Iec61937 → s < dW) :
    (step dW m s d).mode = .Iec61937 → (step dW m s d).streak < dW := by
  cases m with
  | Unknown =>
      cases d with
      | true => exact fun _ => hdW
      | false =>
          simp only [step]
          split
          · intro h; simp at h
          · intro h; simp at h
  | Pcm =>
      cases d with
      | true => exact fun _ => hdW
      | false => intro h; simp [step] at h
  | Iec61937 =>
      cases d with
      | true => exact fun _ => hdW
      | false =>
          simp only [step]
          split
          · intro h; simp at h
          · intro _; rename_i hlt; show s + 1 < dW; omega

lemma runFrom_compressed_inv (dW : Nat) (hdW : 1 ≤ dW) :
    ∀ (t : List Bool) (st : Mode × Nat), (st.1 = .Iec61937 → st.2 < dW) →
      ((runFrom dW st t).1 = .Iec61937 → (runFrom dW st t).2 < dW) := by
  intro t
  induction t with
  | nil => intro st h; exact h
  | cons d rest ih =>
      intro st h
      rw [runFrom]
      exact ih (stepMS dW st d) (step_preserves_compressed_inv dW hdW st.1 st.2 d h)

/-- Claim C9: main-loop invariant — starting from `Unknown` with a zero miss
streak, for every `detWindow ≥ 1` and every sequence of chunk classifications,
whenever the mode is `Iec61937` (Compressed) at the top of an iteration the
miss-streak counter is strictly below `detWindow`. -/
theorem compressed_streak_below_window (dW : Nat) (hdW : 1 ≤ dW) (t : List Bool) :
    (runFrom dW (Mode.Unknown, 0) t).1 = Mode.Iec61937 →
    (runFrom dW (Mode.Unknown, 0) t).2 < dW :=
  runFrom_compressed_inv dW hdW t (Mode.Unknown, 0) (by simp)

/-- Witness for C9: `detWindow = 1`, a single hit — mode is Compressed, streak 0. -/
theorem compressed_streak_below_window_witness :
    (runFrom 1 (Mode.Unknown, 0) [true]).2 < 1 :=
  compressed_streak_below_window 1 (by decide) [true] (by decide)

/-- Claim C10: while the mode is `Unknown`, an undetected chunk whose
incremented streak is still below the window is written to no sink at all;
`Unknown` routes a chunk to the passthrough sink exactly when the chunk is a
miss that reaches the window, and then the mode becomes `Pcm`; a detected
chunk goes to a freshly opened decoder session. -/
theorem unknown_miss_discards_chunk :
    (∀ (dW s : Nat), s + 1 < dW →
      step dW .Unknown s false = ⟨.Unknown, s + 1, .dropped, false, false⟩) ∧
    (∀ (dW s : Nat) (d : Bool),
      ((step dW .Unknown s d).route = .toPcm ↔ (d = false ∧ dW ≤ s + 1))) ∧
    (∀ (dW s : Nat) (d : Bool), (step dW .Unknown s d).route = .toPcm →
      (step dW .Unknown s d).mode = .Pcm) ∧
    (∀ (dW s : Nat), step dW .Unknown s true = ⟨.Iec61937, 0, .toDecoder, true, false⟩) := by
  refine ⟨?_, ?_, ?_, ?_⟩
  · intro dW s hs
    simp [step, if_neg (show ¬ dW ≤ s + 1 by omega)]
  · intro dW s d
    cases d <;> simp [step]
    split <;> simp_all
  · intro dW s d
    cases d <;> simp [step]
    split <;> simp_all
  · intro dW s
    simp [step]

/-- Witness for C10 at `detWindow = 3`, streak 0: the first miss in `Unknown`
is dropped (no sink write, no session change). -/
theorem unknown_miss_discards_chunk_witness :
    step 3 .Unknown 0 false = ⟨.Unknown, 1, .dropped, false, false⟩ :=
  unknown_miss_discards_chunk.1 3 0 (by decide)

/-! ## Claims C4, C5, C7 — the decoder-bridge pump -/

/-- Claim C4 (code behavior at the failing input): with destination frame size
24 and a wrapped sink whose very first write fails, the pump attempts exactly
one write (the failure is reported once, every later decoded chunk is dropped
while the process output keeps being consumed and drained), but at
end-of-stream the pump's `out.unwrap()` runs on `None`, so the worker
terminates abnormally and `finish()` reports `Err` instead of the session
ending cleanly. -/
theorem pump_sink_failure_panics_at_eos :
    (pumpRun 24 (fun k => k == 0) [List.replicate 24 1, List.replicate 24 2]).attempts
      = [List.replicate 24 1] ∧
    (pumpRun 24 (fun k => k == 0) [List.replicate 24 1, List.replicate 24 2]).active
      = false ∧
    (pumpRun 24 (fun k => k == 0) [List.replicate 24 1, List.replicate 24 2]).stash
      = [] ∧
    pumpOutcome 24 (fun k => k == 0) (0 : Nat) [List.replicate 24 1, List.replicate 24 2]
      = .panicked ∧
    finishModel 24 (fun k => k == 0) (0 : Nat) [List.replicate 24 1, List.replicate 24 2]
      = .error () := by
  refine ⟨by decide, by decide, by decide, by decide, rfl⟩

/-- Claim C5 (code behavior): the in-loop writes are frame-aligned as claimed —
with destination spec `F32LE` 6ch (frame 24) three 10-byte reads yield exactly
one 24-byte write with a 6-byte remainder, and at end-of-stream that remainder
is padded to 24 — but the end-of-stream padding boundary is the hardcoded
`FRAME_BYTES = 24`, not the destination frame size: with destination spec
`F32LE` 4ch (frame 16 bytes) a single 10-byte read is flushed as one 24-byte
write, which is not even a multiple of the 16-byte destination frame. -/
theorem pump_flush_pads_to_hardcoded_24 :
    frame_bytes ⟨Format.F32le, 48000, 6⟩ = 24 ∧
    (pumpRun (frame_bytes ⟨Format.F32le, 48000, 6⟩) (fun _ => false)
        [List.replicate 10 5, List.replicate 10 5, List.replicate 10 5]).attempts
      = [List.replicate 24 5, List.replicate 6 5 ++ List.replicate 18 0] ∧
    frame_bytes ⟨Format.F32le, 48000, 4⟩ = 16 ∧
    (pumpRun (frame_bytes ⟨Format.F32le, 48000, 4⟩) (fun _ => false)
        [List.replicate 10 7]).attempts
      = [List.replicate 10 7 ++ List.replicate 14 0] ∧
    (List.replicate 10 7 ++ List.replicate 14 0).length = 24 ∧
    ¬ (16 ∣ 24) := by
  refine ⟨rfl, by decide, rfl, by decide, by decide, by decide⟩

/-- Claim C7: a successful `finish()` hands back exactly the sink object that
was passed to `wrap` — the pump thread's termination value is that same sink,
threaded linearly — and `finish()` fails (`Err`) whenever the pump worker
terminated abnormally (panicked). -/
theorem finish_returns_wrapped_sink :
    (∀ (α : Type) (fb : Nat) (fail : Nat → Bool) (reads : List (List Nat)) (σ τ : α),
      finishModel fb fail σ reads = .ok τ → τ = σ) ∧
    (∀ (α : Type) (fb : Nat) (fail : Nat → Bool) (reads : List (List Nat)) (σ : α),
      pumpOutcome fb fail σ reads = .panicked →
      finishModel fb fail σ reads = .error ()) := by
  constructor
  · intro α fb fail reads σ τ h
    cases hac : (pumpRun fb fail reads).active with
    | true =>
        simp [finishModel, pumpOutcome, hac] at h
        exact h.symm
    | false =>
        simp [finishModel, pumpOutcome, hac] at h
  · intro α fb fail reads σ h
    unfold finishModel
    rw [h]

/-- Witness for C7: a concrete run with no write failure returns the very sink
value that went in; a concrete failing run makes `finish` report the error. -/
theorem finish_returns_wrapped_sink_witness :
    (5 : Nat) = 5 ∧
    finishModel 24 (fun _ => true) (5 : Nat) [List.replicate 24 3] = .error () :=
  ⟨finish_returns_wrapped_sink.1 Nat 24 (fun _ => false) [List.replicate 24 3] 5 5 rfl,
   finish_returns_wrapped_sink.2 Nat 24 (fun _ => true) [List.replicate 24 3] 5 rfl⟩

/-! ## Claim C8 — the input reader -/

/-- Claim C8 counterexample: `Input::open` sizes its chunk buffer as
`chunk_frames * (in_channels * 2)` with the 2 bytes per sample hardcoded, so
for input format `S24LE` (sample width 3) with 2 channels and one frame per
chunk the buffer is 4 bytes, not the `channelCount × byteWidth(format) = 6`
bytes the claim derives from the configured input SampleSpec. -/
theorem input_chunk_ignores_format_counterexample :
    inputChunkBytes 1 2 = 4 ∧
    1 * (2 * bytes_per_sample Format.S24le) = 6 ∧
    inputChunkBytes 1 2 ≠ 1 * (2 * bytes_per_sample Format.S24le) := by
  decide

lemma readChunk_complete (L : Nat) :
    ∀ (reads : List Nat) (got g : Nat), got ≤ L →
      validReads L got reads = true → readChunk L reads got = some g → g = L := by
  intro reads
  induction reads with
  | nil =>
      intro got g hle _ hread
      rw [readChunk] at hread
      split at hread
      · rename_i hLg
        have : got = g := by simpa using hread
        omega
      · simp at hread
  | cons n rest ih =>
      intro got g hle hvalid hread
      rw [readChunk] at hread
      rw [validReads] at hvalid
      split at hread
      · rename_i hLg
        have : got = g := by simpa using hread
        omega
      · rename_i hLg
        rw [if_neg hLg] at hvalid
        simp only [Bool.and_eq_true, decide_eq_true_eq] at hvalid
        exact ih (got + n) g (by omega) hvalid.2 hread

/-- Claim C8 (amended): every completed chunk read delivers exactly
`chunk_frames × in_channels × 2` bytes — the per-sample width is the hardcoded
2 bytes of `Input::open`, not the byte width of the configured input format —
and on a file/FIFO source an end-of-file (a read of 0) is not fatal: the loop
retries and keeps reading on the same handle until the chunk is full. -/
theorem input_chunk_fixed_size_and_eof_retry :
    (∀ (cf ch : Nat) (reads : List Nat) (g : Nat),
      validReads (inputChunkBytes cf ch) 0 reads = true →
      readChunk (inputChunkBytes cf ch) reads 0 = some g →
      g = inputChunkBytes cf ch) ∧
    (∀ (L got : Nat) (rest : List Nat), got < L →
      readChunk L (0 :: rest) got = readChunk L rest got) := by
  constructor
  · intro cf ch reads g hvalid hread
    exact readChunk_complete (inputChunkBytes cf ch) reads 0 g (Nat.zero_le _) hvalid hread
  · intro L got rest hlt
    rw [readChunk, if_neg (by omega)]
    rw [Nat.add_zero]

/-- Witness for C8: chunk size 8 (= 2 frames × 2 ch × 2 bytes), reads of sizes
3, 0 (a retried end-of-file), 3 and 2 complete the chunk at exactly 8 bytes. -/
theorem input_chunk_fixed_size_and_eof_retry_witness :
    (8 : Nat) = inputChunkBytes 2 2 :=
  input_chunk_fixed_size_and_eof_retry.1 2 2 [3, 0, 3, 2] 8 (by decide) (by decide)

end PcmAutoDecoder
